import Mathlib

/-!
# Verification of the pybif6 BIF6 decoder

A shallow embedding of `src/pybif6/parser.py`, the decoder for the BIF6
binary format (mass-spectrometry-imaging interval images), together with
proofs of the specification's claims about it.

Modelling choices:
* A file's contents are a `List Nat` of byte values; the Python file object
  is a `Handle` holding the contents, a read cursor, and a closed flag.
  `Handle.read n` returns up to `n` bytes from the cursor and advances it,
  like `file.read(n)` on a regular binary file.
* `Handle.close` sets the closed flag.  CPython's `io.IOBase.close` is
  documented to have no effect on an already-closed file, so closing is
  total and idempotent.
* Machine integers are `Nat` with explicit little-endian recombination.
* The three `f32` m/z fields are decoded from their raw bits to an exact
  `Option ℚ` (`none` for the non-finite exponent 255); every finite IEEE-754
  single value is an exact rational, and `struct.unpack` widening to a
  Python float is exact, so this is faithful for finite values.
* `numpy.frombuffer(..., uint32)` becomes `u32sOfBytes`,
  `.reshape((h, w))` becomes `reshapeRows` (h rows of w pixels), and `.T`
  becomes `npTranspose` (numpy's transpose is the index-swap view
  `T[x][y] = A[y][x]`).
* Python `assert` failures and `StopIteration` become explicit result
  constructors.
-/

/-- Little-endian 16-bit value from two bytes (`struct` format `H`). -/
def le16 (b0 b1 : Nat) : Nat := b0 + 256 * b1

/-- Little-endian 32-bit value from four bytes (`struct` format `I`,
and the raw bits of format `f`). -/
def le32 (b0 b1 b2 b3 : Nat) : Nat := b0 + 256 * (b1 + 256 * (b2 + 256 * b3))

/-- The little-endian 32-bit value whose four bytes sit at offset `j` of
`bs` (missing bytes read as 0; all uses are guarded by length bounds). -/
def le32At (bs : List Nat) (j : Nat) : Nat :=
  le32 (bs.getD j 0) (bs.getD (j + 1) 0) (bs.getD (j + 2) 0) (bs.getD (j + 3) 0)

/-- Exact value of an IEEE-754 single-precision float given its raw 32 bits,
as a rational; `none` when the exponent field is 255 (infinity / NaN).
Mirrors how `struct.unpack('<f', ...)` interprets the bytes. -/
def f32ToRat (bits : Nat) : Option ℚ :=
  let s : Nat := bits / 2 ^ 31 % 2
  let e : Nat := bits / 2 ^ 23 % 256
  let f : Nat := bits % 2 ^ 23
  if e = 255 then none
  else
    let sgn : ℚ := if s = 1 then -1 else 1
    if e = 0 then some (sgn * f / 2 ^ 149)
    else some (sgn * ((2 ^ 23 + f) * 2 ^ e) / 2 ^ 150)

/-- `numpy.frombuffer(bs, dtype=uint32)`: consecutive 4-byte groups as
little-endian 32-bit values; a trailing group of fewer than 4 bytes is
dropped (all uses have length a multiple of 4). -/
def u32sOfBytes : List Nat → List Nat
  | b0 :: b1 :: b2 :: b3 :: rest => le32 b0 b1 b2 b3 :: u32sOfBytes rest
  | _ => []

/-- `.reshape((h, w))` on a flat list: `h` consecutive rows of `w` entries.
The row count is explicit, so `w = 0` still yields `h` empty rows, as numpy
does when `h*w` matches the (then empty) buffer length. -/
def reshapeRows (w : Nat) : Nat → List Nat → List (List Nat)
  | 0, _ => []
  | h + 1, xs => xs.take w :: reshapeRows w h (xs.drop w)

/-- numpy's `.T` on an `(h, w)`-shaped array: the `(w, h)`-shaped index-swap
view, `T[x][y] = A[y][x]`. -/
def npTranspose (h w : Nat) (rows : List (List Nat)) : List (List Nat) :=
  (List.range w).map fun x => (List.range h).map fun y => (rows.getD y []).getD x 0

/-- `b'\x00\x00BIF6'`, the `_BIF6_MAGIC` constant. -/
def bif6Magic : List Nat := [0, 0, 66, 73, 70, 54]

/-- `_BIF6_HEADER = struct.Struct('<6s3H')` — its size: 6 magic bytes plus
three little-endian `u16` fields. -/
def bif6HeaderSize : Nat := 12

/-- `_MZ_BIN_HEADER = struct.Struct('<I3f')` — its size. -/
def mzBinHeaderSize : Nat := 16

/-- The Python file object: contents, read cursor, closed flag. -/
structure Handle where
  data : List Nat
  pos : Nat
  closed : Bool
  deriving Repr, DecidableEq

/-- `file.read(n)` on a regular binary file: up to `n` bytes from the
cursor, advancing it by however many were actually read (an empty result
at end of file). -/
def Handle.read (h : Handle) (n : Nat) : List Nat × Handle :=
  let bs := (h.data.drop h.pos).take n
  (bs, { h with pos := h.pos + bs.length })

/-- `file.close()`.  Per the `io` documentation this has no effect if the
file is already closed, so it is total and idempotent. -/
def Handle.fclose (h : Handle) : Handle := { h with closed := true }

/-- Bytes not yet consumed by the cursor. -/
def Handle.remaining (h : Handle) : Nat := h.data.length - h.pos

/-- A Python runtime value, just rich enough to model the name resolution
inside `BIF6Interval.is_tic_image`: the bare name `id` there denotes the
global builtin function, not the instance field. -/
inductive PyValue where
  | intVal : Int → PyValue
  | builtinFun : String → PyValue
  deriving Repr, DecidableEq

/-- Python `==` on the modelled values: two ints compare by value; a
builtin function never equals an int (and two builtins compare by name,
standing in for object identity). -/
def pyEq : PyValue → PyValue → Bool
  | .intVal a, .intVal b => a == b
  | .builtinFun a, .builtinFun b => a == b
  | _, _ => false

/-- What the bare name `id` resolves to in the body of `is_tic_image`:
the global builtin function `id`, since no local or instance scope binds
that name there. -/
def globalNameId : PyValue := .builtinFun "id"

/-- `BIF6Interval`: one decoded record.  The image is the decoded 2D array
(a list of `width` columns, each of `height` pixels); the m/z floats are
kept as their exact rational values (`none` for non-finite). -/
structure BIF6Interval where
  id : Nat
  mz_lower : Option ℚ
  mz_middle : Option ℚ
  mz_upper : Option ℚ
  image : List (List Nat)
  deriving Repr, DecidableEq

/-- `BIF6Interval.is_tic_image`, translated as written: `return id == 0`
compares the global builtin `id` — not `self.id` — with `0`. -/
def BIF6Interval.is_tic_image (_self : BIF6Interval) : Bool :=
  pyEq globalNameId (.intVal 0)

/-- `BIF6FileParser`: the open decoder session — the file handle plus the
three header fields (`_n_intervals`, `_n_x_pixels`, `_n_y_pixels`). -/
structure BIF6FileParser where
  file : Handle
  n_intervals : Nat
  n_x_pixels : Nat
  n_y_pixels : Nat
  deriving Repr, DecidableEq

/-- The error kinds surfaced by the decoder: the two `assert` messages of
`__init__`, the `assert` of `__next__`, and the `ValueError` Python raises
when reading a closed file. -/
inductive ParseError where
  | truncatedHeader
  | badMagic
  | truncatedInterval
  | closedFile
  deriving Repr, DecidableEq

/-- Result of `BIF6FileParser(file)` (i.e. `open`): either a ready session,
or an error along with the state of the already-acquired handle — the
failing constructor never closes it. -/
inductive OpenResult where
  | ok : BIF6FileParser → OpenResult
  | err : ParseError → Handle → OpenResult
  deriving Repr, DecidableEq

/-- `BIF6FileParser.__init__` on a file with contents `data`: read 12
header bytes, assert the length, unpack `<6s3H>`, assert the magic, store
the three `u16` fields. -/
def bif6_open (data : List Nat) : OpenResult :=
  let h0 : Handle := ⟨data, 0, false⟩
  let r := h0.read bif6HeaderSize
  let header := r.1
  let h1 := r.2
  if header.length = bif6HeaderSize then
    if header.take 6 = bif6Magic then
      .ok ⟨h1, le16 (header.getD 6 0) (header.getD 7 0),
              le16 (header.getD 8 0) (header.getD 9 0),
              le16 (header.getD 10 0) (header.getD 11 0)⟩
    else .err .badMagic h1
  else .err .truncatedHeader h1

/-- `BIF6FileParser.interval_count`. -/
def BIF6FileParser.interval_count (s : BIF6FileParser) : Nat := s.n_intervals

/-- `BIF6FileParser.image_size`. -/
def BIF6FileParser.image_size (s : BIF6FileParser) : Nat × Nat :=
  (s.n_x_pixels, s.n_y_pixels)

/-- `BIF6FileParser.close`: close the underlying file. -/
def BIF6FileParser.close (s : BIF6FileParser) : BIF6FileParser :=
  { s with file := s.file.fclose }

/-- Decode one full record body (`<I3f>` header plus pixel payload) into a
`BIF6Interval`, with the image reshaped to `(h, w)` row-major and then
transposed, exactly as
`np.frombuffer(..., uint32).reshape((n_y, n_x)).T`. -/
def decodeInterval (w h : Nat) (d : List Nat) : BIF6Interval :=
  { id := le32At d 0
    mz_lower := f32ToRat (le32At d 4)
    mz_middle := f32ToRat (le32At d 8)
    mz_upper := f32ToRat (le32At d 12)
    image := npTranspose h w (reshapeRows w h (u32sOfBytes (d.drop mzBinHeaderSize))) }

/-- Result of one `__next__` call: a decoded interval, `StopIteration`, or
an error; each carries the session state after the call. -/
inductive NextResult where
  | ok : BIF6Interval → BIF6FileParser → NextResult
  | stop : BIF6FileParser → NextResult
  | err : ParseError → BIF6FileParser → NextResult
  deriving Repr, DecidableEq

/-- `BIF6FileParser.__next__`: read one record of
`16 + 4 * n_x * n_y` bytes; an empty read closes the file and raises
`StopIteration`; a short read fails the `'Incomplete BIF6 interval'`
assert (leaving the file open); a full read decodes.  Reading a closed
file raises `ValueError` in Python, modelled by the `closedFile` error. -/
def bif6_next (s : BIF6FileParser) : NextResult :=
  if s.file.closed then .err .closedFile s
  else
    let recSize := mzBinHeaderSize + s.n_x_pixels * s.n_y_pixels * 4
    let r := s.file.read recSize
    let d := r.1
    let s' : BIF6FileParser := { s with file := r.2 }
    if d.length = 0 then .stop s'.close
    else if d.length = recSize then .ok (decodeInterval s.n_x_pixels s.n_y_pixels d) s'
    else .err .truncatedInterval s'

/-- The session state carried by a `NextResult`. -/
def NextResult.session : NextResult → BIF6FileParser
  | .ok _ s => s
  | .stop s => s
  | .err _ s => s

/-- Whether an `OpenResult` is a successful open. -/
def OpenResult.isOk : OpenResult → Bool
  | .ok _ => true
  | .err _ _ => false

/-- Whether an `OpenResult` is a given error. -/
def OpenResult.isErr (e : ParseError) : OpenResult → Bool
  | .ok _ => false
  | .err e' _ => e' == e

/-- Whether a `NextResult` is a given error. -/
def NextResult.isErr (e : ParseError) : NextResult → Bool
  | .err e' _ => e' == e
  | _ => false

/-! ## Concrete inputs used by witnesses and counterexamples -/

/-- The concrete file of the spec's worked scenario: magic,
`interval_count = 2`, `width = 2`, `height = 1`, then one record with
`id = 1`, m/z floats `1.0, 2.0, 3.0` and pixel row `[1, 2]`. -/
def c7data : List Nat :=
  [0, 0, 66, 73, 70, 54, 2, 0, 2, 0, 1, 0,
   1, 0, 0, 0, 0, 0, 128, 63, 0, 0, 0, 64, 0, 0, 64, 64,
   1, 0, 0, 0, 2, 0, 0, 0]

/-- The session obtained by opening `c7data`. -/
def c7sess : BIF6FileParser := ⟨⟨c7data, 12, false⟩, 2, 2, 1⟩

/-- A file declaring 10 intervals but containing only 3 (each 20 bytes,
`width = height = 1`). -/
def c3file : List Nat :=
  bif6Magic ++ [10, 0, 1, 0, 1, 0]
    ++ ([1, 0, 0, 0] ++ [0, 0, 0, 0, 0, 0, 0, 0, 0, 0, 0, 0] ++ [1, 0, 0, 0])
    ++ ([2, 0, 0, 0] ++ [0, 0, 0, 0, 0, 0, 0, 0, 0, 0, 0, 0] ++ [2, 0, 0, 0])
    ++ ([3, 0, 0, 0] ++ [0, 0, 0, 0, 0, 0, 0, 0, 0, 0, 0, 0] ++ [3, 0, 0, 0])

/-- The `c3file` session after its 3 records have been consumed. -/
def c3sess : BIF6FileParser := ⟨⟨c3file, 72, false⟩, 10, 1, 1⟩

/-- A file whose single record is truncated: 5 bytes remain where a
20-byte record (`width = height = 1`) is required. -/
def c4file : List Nat := bif6Magic ++ [1, 0, 1, 0, 1, 0] ++ [1, 2, 3, 4, 5]

/-- The freshly opened `c4file` session. -/
def c4sess : BIF6FileParser := ⟨⟨c4file, 12, false⟩, 1, 1, 1⟩

/-- An arbitrary concrete session used to exercise `close`. -/
def c8sess : BIF6FileParser := ⟨⟨c4file, 17, false⟩, 1, 1, 1⟩

/-- A file whose header declares `width = 0`, `height = 5`: its single
record is a bare 16-byte record header with an empty payload. -/
def c10file : List Nat :=
  bif6Magic ++ [1, 0, 0, 0, 5, 0]
    ++ [7, 0, 0, 0, 0, 0, 0, 0, 0, 0, 0, 0, 0, 0, 0, 0]

/-- The freshly opened `c10file` session. -/
def c10sess : BIF6FileParser := ⟨⟨c10file, 12, false⟩, 1, 0, 5⟩

/-- The `c10file` session after its record has been consumed. -/
def c10sessEnd : BIF6FileParser := ⟨⟨c10file, 28, false⟩, 1, 0, 5⟩

/-! ## Indexing lemmas for the image decoding pipeline -/

theorem getD_range_map {α : Type*} (f : Nat → α) (n i : Nat) (d : α) (h : i < n) :
    ((List.range n).map f).getD i d = f i := by
  simp [List.getD_eq_getElem?_getD, List.getElem?_map, List.getElem?_range h]

theorem getD_take {α : Type*} (xs : List α) (n x : Nat) (d : α) (hx : x < n) :
    (xs.take n).getD x d = xs.getD x d := by
  simp [List.getD_eq_getElem?_getD, List.getElem?_take, hx]

theorem getD_drop {α : Type*} (xs : List α) (n x : Nat) (d : α) :
    (xs.drop n).getD x d = xs.getD (n + x) d := by
  simp [List.getD_eq_getElem?_getD, List.getElem?_drop]

theorem le32At_cons4 (a b c d : Nat) (t : List Nat) (j : Nat) :
    le32At (a :: b :: c :: d :: t) (4 + j) = le32At t j := by
  have e : ∀ k, (a :: b :: c :: d :: t).getD (4 + k) 0 = t.getD k 0 := by
    intro k
    simpa using (getD_drop (a :: b :: c :: d :: t) 4 k 0).symm
  simp only [le32At, show 4 + j + 1 = 4 + (j + 1) by ring,
    show 4 + j + 2 = 4 + (j + 2) by ring, show 4 + j + 3 = 4 + (j + 3) by ring, e]

/-- The `i`-th element of `numpy.frombuffer(bs, uint32)` is the
little-endian 32-bit value at byte offset `4*i`. -/
theorem u32sOfBytes_getD (i : Nat) (bs : List Nat) (h : 4 * i + 4 ≤ bs.length) :
    (u32sOfBytes bs).getD i 0 = le32At bs (4 * i) := by
  induction i generalizing bs with
  | zero =>
    rcases bs with _ | ⟨b0, _ | ⟨b1, _ | ⟨b2, _ | ⟨b3, rest⟩⟩⟩⟩ <;>
      simp only [List.length_nil, List.length_cons] at h
    · omega
    · omega
    · omega
    · omega
    · simp [u32sOfBytes, le32At, List.getD]
  | succ i ih =>
    rcases bs with _ | ⟨b0, _ | ⟨b1, _ | ⟨b2, _ | ⟨b3, rest⟩⟩⟩⟩ <;>
      simp only [List.length_nil, List.length_cons] at h
    · omega
    · omega
    · omega
    · omega
    · have h' : 4 * i + 4 ≤ rest.length := by omega
      rw [show 4 * (i + 1) = 4 + 4 * i by ring, le32At_cons4]
      simp only [u32sOfBytes, List.getD_cons_succ]
      exact ih rest h'

/-- Row `y` of `.reshape((h, w))` is the `y`-th chunk of `w` entries. -/
theorem reshapeRows_getD (w h y : Nat) (xs : List Nat) (hy : y < h) :
    (reshapeRows w h xs).getD y [] = (xs.drop (w * y)).take w := by
  induction h generalizing y xs with
  | zero => omega
  | succ h ih =>
    cases y with
    | zero => simp [reshapeRows]
    | succ y =>
      rw [reshapeRows, List.getD_cons_succ, ih y (xs.drop w) (by omega),
        List.drop_drop]
      ring_nf

/-- Pixel `image[x][y]` of a decoded record is the little-endian `u32` at
linear pixel index `y*w + x` of the payload (the bytes past the 16-byte
record header). -/
theorem decodeInterval_image_pix (w h x y : Nat) (d : List Nat)
    (hx : x < w) (hy : y < h) (hlen : d.length = mzBinHeaderSize + w * h * 4) :
    ((decodeInterval w h d).image.getD x []).getD y 0 =
      le32At (d.drop mzBinHeaderSize) (4 * (y * w + x)) := by
  have hplen : (d.drop mzBinHeaderSize).length = w * h * 4 := by
    simp [List.length_drop, hlen]
  unfold decodeInterval npTranspose
  rw [getD_range_map _ _ _ _ hx, getD_range_map _ _ _ _ hy,
    reshapeRows_getD _ _ _ _ hy, getD_take _ _ _ _ hx, getD_drop,
    u32sOfBytes_getD _ _ (by nlinarith [Nat.succ_le_of_lt hx, Nat.succ_le_of_lt hy]),
    show w * y + x = y * w + x by ring]

/-- The decoded image always has `w` columns of `h` pixels each. -/
theorem decodeInterval_image_shape (w h : Nat) (d : List Nat) :
    (decodeInterval w h d).image.length = w ∧
      ∀ row ∈ (decodeInterval w h d).image, row.length = h := by
  constructor
  · simp [decodeInterval, npTranspose]
  · intro row hrow
    simp only [decodeInterval, npTranspose, List.mem_map] at hrow
    obtain ⟨x, -, rfl⟩ := hrow
    simp

/-- Inversion for a successful `__next__`: the bytes actually read form a
complete record and the interval is its decoding. -/
theorem bif6_next_ok_inv (s : BIF6FileParser) (iv : BIF6Interval) (s' : BIF6FileParser)
    (h : bif6_next s = .ok iv s') :
    ((s.file.data.drop s.file.pos).take
        (mzBinHeaderSize + s.n_x_pixels * s.n_y_pixels * 4)).length
      = mzBinHeaderSize + s.n_x_pixels * s.n_y_pixels * 4 ∧
    iv = decodeInterval s.n_x_pixels s.n_y_pixels
      ((s.file.data.drop s.file.pos).take
        (mzBinHeaderSize + s.n_x_pixels * s.n_y_pixels * 4)) := by
  simp only [bif6_next, Handle.read] at h
  split_ifs at h with h1 h2 h3
  all_goals injection h with hiv hs
  all_goals exact ⟨h3, hiv.symm⟩

/-- `__init__` raises `'Invalid BIF6 header'` exactly on files shorter than
the 12-byte header. -/
theorem bif6_open_trunc_iff (data : List Nat) :
    (bif6_open data).isErr .truncatedHeader = true ↔ data.length < bif6HeaderSize := by
  simp only [bif6_open, Handle.read, List.drop_zero]
  split_ifs with h1 h2 <;>
    simp_all [OpenResult.isErr, List.length_take]

theorem take_header_take6 (data : List Nat) :
    (data.take bif6HeaderSize).take 6 = data.take 6 := by
  rw [List.take_take]
  norm_num [bif6HeaderSize]

/-- `__init__` raises `'Invalid BIF6 magic'` exactly on files of at least
12 bytes whose first 6 bytes are not the magic. -/
theorem bif6_open_badmagic_iff (data : List Nat) :
    (bif6_open data).isErr .badMagic = true ↔
      bif6HeaderSize ≤ data.length ∧ data.take 6 ≠ bif6Magic := by
  simp only [bif6_open, Handle.read, List.drop_zero, take_header_take6]
  split_ifs with h1 h2 <;>
    simp_all [OpenResult.isErr, List.length_take]

/-- `__init__` succeeds exactly on files of at least 12 bytes whose first
6 bytes are the magic. -/
theorem bif6_open_ok_iff (data : List Nat) :
    (bif6_open data).isOk = true ↔
      bif6HeaderSize ≤ data.length ∧ data.take 6 = bif6Magic := by
  simp only [bif6_open, Handle.read, List.drop_zero, take_header_take6]
  split_ifs with h1 h2 <;>
    simp_all [OpenResult.isOk, List.length_take]

/-- At a clean record boundary with no bytes left, `__next__` closes the
file and raises `StopIteration`, whatever the declared interval count. -/
theorem next_eof_stop (s : BIF6FileParser) (hopen : s.file.closed = false)
    (heof : s.file.data.length ≤ s.file.pos) :
    bif6_next s = .stop s.close := by
  simp [bif6_next, Handle.read, hopen, List.drop_eq_nil_of_le heof,
    BIF6FileParser.close, Handle.fclose]

/-- A nonzero but incomplete record read fails the
`'Incomplete BIF6 interval'` assert; the file cursor has consumed the
partial bytes and the file is left open (`closed = false`). -/
theorem next_short_read (s : BIF6FileParser) (hopen : s.file.closed = false)
    (h1 : 0 < s.file.data.length - s.file.pos)
    (h2 : s.file.data.length - s.file.pos
        < mzBinHeaderSize + s.n_x_pixels * s.n_y_pixels * 4) :
    bif6_next s = .err .truncatedInterval
      ⟨⟨s.file.data, s.file.data.length, false⟩,
        s.n_intervals, s.n_x_pixels, s.n_y_pixels⟩ := by
  have hmin : (mzBinHeaderSize + s.n_x_pixels * s.n_y_pixels * 4)
      ⊓ (s.file.data.length - s.file.pos) = s.file.data.length - s.file.pos := by
    omega
  simp only [bif6_next, Handle.read, hopen, List.length_take, List.length_drop, hmin]
  rw [if_neg (show ¬(false = true) by simp),
    if_neg (show ¬(s.file.data.length - s.file.pos = 0) by omega),
    if_neg (show ¬(s.file.data.length - s.file.pos
      = mzBinHeaderSize + s.n_x_pixels * s.n_y_pixels * 4) by omega),
    show s.file.pos + (s.file.data.length - s.file.pos) = s.file.data.length by omega]

/-- Overwriting any single byte of the magic in an otherwise long-enough
file makes `__init__` fail its magic assert. -/
theorem magic_corrupt_badmagic (data : List Nat) (i v : Nat)
    (hlen : bif6HeaderSize ≤ data.length) (_hmag : data.take 6 = bif6Magic)
    (hi : i < 6) (hv : v ≠ bif6Magic.getD i 0) :
    (bif6_open (data.set i v)).isErr .badMagic = true := by
  have hlen' : 12 ≤ data.length := hlen
  rw [bif6_open_badmagic_iff]
  refine ⟨by simpa [List.length_set] using hlen, fun hcontra => ?_⟩
  have h1 : ((data.set i v).take 6).getD i 0 = v := by
    rw [getD_take _ _ _ _ hi, List.getD_eq_getElem?_getD,
      List.getElem?_set_self (by omega), Option.getD_some]
  rw [hcontra] at h1
  exact hv h1.symm

/-- With `width*height = 0` the decoded image holds no pixels at all. -/
theorem decodeInterval_image_flatten_nil (w h : Nat) (hwh : w * h = 0)
    (d : List Nat) : (decodeInterval w h d).image.flatten = [] := by
  rw [List.flatten_eq_nil_iff]
  intro row hrow
  rcases Nat.mul_eq_zero.mp hwh with h0 | h0
  · simp [decodeInterval, npTranspose, h0] at hrow
  · simp only [decodeInterval, npTranspose, List.mem_map] at hrow
    obtain ⟨x, -, rfl⟩ := hrow
    simp [h0]

/-- With `width*height = 0`, `__next__` reads a bare 16-byte record header
and succeeds whenever 16 bytes remain. -/
theorem next_zero_pixels (s : BIF6FileParser) (hopen : s.file.closed = false)
    (hzero : s.n_x_pixels * s.n_y_pixels = 0)
    (hlen : mzBinHeaderSize ≤ s.file.data.length - s.file.pos) :
    bif6_next s = .ok
      (decodeInterval s.n_x_pixels s.n_y_pixels
        ((s.file.data.drop s.file.pos).take mzBinHeaderSize))
      ⟨⟨s.file.data, s.file.pos + mzBinHeaderSize, false⟩,
        s.n_intervals, s.n_x_pixels, s.n_y_pixels⟩ := by
  have hrec : mzBinHeaderSize + s.n_x_pixels * s.n_y_pixels * 4 = mzBinHeaderSize := by
    rw [hzero]
    ring
  have hmin : mzBinHeaderSize ⊓ (s.file.data.length - s.file.pos) = mzBinHeaderSize := by
    omega
  simp only [bif6_next, Handle.read, hopen, hrec, List.length_take, List.length_drop,
    hmin]
  rw [if_neg (show ¬(false = true) by simp),
    if_neg (show ¬(mzBinHeaderSize = 0) by decide), if_pos trivial]

/-! ## The claims -/

/-- Claim C1: for every successfully decoded interval over a file with
header dimensions `width` and `height`, and all `x < width`,
`y < height`, the returned image satisfies `image[x][y] =` the unsigned
32-bit little-endian integer at linear pixel index `y*width + x` of that
record's payload bytes — the returned `(width, height)` image is the
exact transpose of the row-major `(height, width)` physical layout. -/
theorem claim_C1_image_is_exact_transpose (s : BIF6FileParser) (iv : BIF6Interval)
    (s' : BIF6FileParser) (h : bif6_next s = .ok iv s') (x y : Nat)
    (hx : x < s.n_x_pixels) (hy : y < s.n_y_pixels) :
    (iv.image.getD x []).getD y 0 =
      le32At (((s.file.data.drop s.file.pos).take
          (mzBinHeaderSize + s.n_x_pixels * s.n_y_pixels * 4)).drop mzBinHeaderSize)
        (4 * (y * s.n_x_pixels + x)) := by
  obtain ⟨hlen, rfl⟩ := bif6_next_ok_inv s iv s' h
  exact decodeInterval_image_pix _ _ _ _ _ hx hy hlen

/-- Claim C1 witness: on the spec's concrete file, `image[1][0]` is the
`u32` at payload pixel index `0*2 + 1`. -/
theorem claim_C1_witness :
    bif6_next c7sess = .ok (decodeInterval 2 1 ((c7data.drop 12).take 24))
      ⟨⟨c7data, 36, false⟩, 2, 2, 1⟩ ∧
    ((decodeInterval 2 1 ((c7data.drop 12).take 24)).image.getD 1 []).getD 0 0 =
      le32At (((c7data.drop 12).take 24).drop 16) (4 * (0 * 2 + 1)) :=
  ⟨rfl, claim_C1_image_is_exact_transpose c7sess _ _ rfl 1 0 (by decide) (by decide)⟩

/-- Claim C2 (amended: the fixed header is 12 bytes — `<6s3H>` is
6 + 3·2 — not the 11 the claim states): `open` fails with
`TruncatedHeader` exactly when fewer than 12 bytes are available, fails
with `BadMagic` exactly when at least 12 bytes are available but the
first 6 differ from the magic, succeeds exactly when at least 12 bytes
are available and the first 6 equal the magic, and corrupting any single
magic byte of a valid file causes `BadMagic`. -/
theorem claim_C2_open_validation :
    (∀ data : List Nat,
        (bif6_open data).isErr .truncatedHeader = true ↔ data.length < 12) ∧
    (∀ data : List Nat,
        (bif6_open data).isErr .badMagic = true ↔
          12 ≤ data.length ∧ data.take 6 ≠ bif6Magic) ∧
    (∀ data : List Nat,
        (bif6_open data).isOk = true ↔ 12 ≤ data.length ∧ data.take 6 = bif6Magic) ∧
    (∀ (data : List Nat) (i v : Nat), 12 ≤ data.length → data.take 6 = bif6Magic →
        i < 6 → v ≠ bif6Magic.getD i 0 →
        (bif6_open (data.set i v)).isErr .badMagic = true) :=
  ⟨bif6_open_trunc_iff, bif6_open_badmagic_iff, bif6_open_ok_iff, magic_corrupt_badmagic⟩

/-- Claim C2 counterexample: an 11-byte input whose first 6 bytes are the
magic — the claim as stated says `open` succeeds on it (11 bytes
available, magic matches); the code fails with `TruncatedHeader`,
because the header is really 12 bytes. -/
theorem claim_C2_counterexample :
    (bif6Magic ++ [2, 0, 2, 0, 1]).length = 11 ∧
    (bif6Magic ++ [2, 0, 2, 0, 1]).take 6 = bif6Magic ∧
    (bif6_open (bif6Magic ++ [2, 0, 2, 0, 1])).isOk = false ∧
    (bif6_open (bif6Magic ++ [2, 0, 2, 0, 1])).isErr .truncatedHeader = true := by
  decide

/-- Claim C2 witness: each branch of the amended claim at a concrete
input, including a single corrupted magic byte. -/
theorem claim_C2_witness :
    (bif6_open []).isErr .truncatedHeader = true ∧
    (bif6_open [1, 0, 66, 73, 70, 54, 0, 0, 0, 0, 0, 0]).isErr .badMagic = true ∧
    (bif6_open c7data).isOk = true ∧
    (bif6_open (c7data.set 2 0)).isErr .badMagic = true :=
  ⟨(claim_C2_open_validation.1 []).mpr (by decide),
   (claim_C2_open_validation.2.1 _).mpr (by decide),
   (claim_C2_open_validation.2.2.1 c7data).mpr (by decide),
   claim_C2_open_validation.2.2.2 c7data 2 0 (by decide) (by decide) (by decide)
     (by decide)⟩

/-- Claim C3: when `next()` finds zero bytes remaining at a record
boundary, the sequence terminates normally (`StopIteration`) and the
source is closed, for every open session — independent of the header's
declared `interval_count` and of how many records were produced. -/
theorem claim_C3_clean_eof_terminates (s : BIF6FileParser)
    (hopen : s.file.closed = false) (heof : s.file.data.length ≤ s.file.pos) :
    bif6_next s = .stop s.close ∧ s.close.file.closed = true :=
  ⟨next_eof_stop s hopen heof, rfl⟩

/-- Claim C3 witness: a session over a file declaring 10 intervals but
holding only 3 (all consumed) terminates cleanly and closes the file. -/
theorem claim_C3_witness :
    c3sess.interval_count = 10 ∧ c3sess.file.data.length ≤ c3sess.file.pos ∧
    bif6_next c3sess = .stop c3sess.close ∧ c3sess.close.file.closed = true :=
  ⟨rfl, by decide, (claim_C3_clean_eof_terminates c3sess rfl (by decide)).1,
    (claim_C3_clean_eof_terminates c3sess rfl (by decide)).2⟩

/-- Claim C4 (amended: the file is NOT released on this path): a nonzero
but incomplete record read fails with `TruncatedInterval` rather than
returning partial data, but the `assert` fires before any `close()`, so
the underlying byte source stays open. -/
theorem claim_C4_truncated_interval_leaves_file_open (s : BIF6FileParser)
    (hopen : s.file.closed = false)
    (h1 : 0 < s.file.data.length - s.file.pos)
    (h2 : s.file.data.length - s.file.pos
        < mzBinHeaderSize + s.n_x_pixels * s.n_y_pixels * 4) :
    bif6_next s = .err .truncatedInterval
      ⟨⟨s.file.data, s.file.data.length, false⟩,
        s.n_intervals, s.n_x_pixels, s.n_y_pixels⟩ ∧
    (bif6_next s).session.file.closed = false := by
  have h := next_short_read s hopen h1 h2
  refine ⟨h, ?_⟩
  rw [h]
  rfl

/-- Claim C4 counterexample: on a file truncated mid-record (5 of 20
record bytes present), `next()` raises `TruncatedInterval` and the file
is still open afterwards — refuting the claim's assertion that the source
is released on this failure path. -/
theorem claim_C4_counterexample :
    (bif6_next c4sess).isErr .truncatedInterval = true ∧
    (bif6_next c4sess).session.file.closed = false := by decide

/-- Claim C4 witness: the amended claim at the concrete truncated file. -/
theorem claim_C4_witness :
    bif6_next c4sess = .err .truncatedInterval ⟨⟨c4file, 17, false⟩, 1, 1, 1⟩ :=
  (claim_C4_truncated_interval_leaves_file_open c4sess rfl (by decide) (by decide)).1

/-- Claim C5: every interval ever produced by `next()` has an image of
shape exactly `(width, height)` as returned by `image_size()`, for any
session state, hence independent of `interval_count` and of how many
intervals came before. -/
theorem claim_C5_image_shape_matches_image_size (s : BIF6FileParser)
    (iv : BIF6Interval) (s' : BIF6FileParser) (h : bif6_next s = .ok iv s') :
    iv.image.length = s.image_size.1 ∧
    ∀ row ∈ iv.image, row.length = s.image_size.2 := by
  obtain ⟨-, rfl⟩ := bif6_next_ok_inv s iv s' h
  simpa [BIF6FileParser.image_size] using
    decodeInterval_image_shape s.n_x_pixels s.n_y_pixels _

/-- Claim C5 witness: the spec's concrete file yields an image of shape
`(2, 1)`. -/
theorem claim_C5_witness :
    bif6_next c7sess = .ok (decodeInterval 2 1 ((c7data.drop 12).take 24))
      ⟨⟨c7data, 36, false⟩, 2, 2, 1⟩ ∧
    (decodeInterval 2 1 ((c7data.drop 12).take 24)).image.length = 2 ∧
    ∀ row ∈ (decodeInterval 2 1 ((c7data.drop 12).take 24)).image, row.length = 1 :=
  ⟨rfl, (claim_C5_image_shape_matches_image_size c7sess _ _ rfl).1,
    (claim_C5_image_shape_matches_image_size c7sess _ _ rfl).2⟩

/-- Claim C6: `is_tic_image()` evaluates to `false` for every interval,
whatever its `id` field (including `id = 0`), because the body compares
the global builtin name `id` — never equal to the int `0` — instead of
the instance's own field. -/
theorem claim_C6_is_tic_image_never_true (iv : BIF6Interval) :
    iv.is_tic_image = false := rfl

/-- Claim C7: the concrete file with header
`00 00 42 49 46 36 02 00 02 00 01 00` and one record
`01 00 00 00 | 00 00 80 3F | 00 00 00 40 | 00 00 40 40 |
01 00 00 00 02 00 00 00` opens successfully and its first `next()`
yields `Interval(id = 1, mz = 1.0, 2.0, 3.0, image = [[1], [2]])` of
shape `(2, 1)`. -/
theorem claim_C7_concrete_file :
    bif6_open c7data = .ok c7sess ∧
    c7sess.interval_count = 2 ∧ c7sess.image_size = (2, 1) ∧
    bif6_next c7sess =
      .ok ⟨1, some 1, some 2, some 3, [[1], [2]]⟩ ⟨⟨c7data, 36, false⟩, 2, 2, 1⟩ := by
  refine ⟨by decide, rfl, rfl, ?_⟩
  norm_num [bif6_next, c7sess, c7data, Handle.read, decodeInterval, mzBinHeaderSize,
    le32At, le32, u32sOfBytes, reshapeRows, npTranspose, f32ToRat, List.range_succ]

/-- Claim C8 (amended: `close()` IS idempotent): a second `close()` on an
already-closed session is a no-op and cannot fail, because the method
delegates to the Python file object's `close()`, which is documented to
have no effect on an already-closed file. -/
theorem claim_C8_close_idempotent (s : BIF6FileParser) :
    s.close.close = s.close ∧ s.close.file.closed = true := ⟨rfl, rfl⟩

/-- Claim C8 counterexample: at a concrete session, closing twice equals
closing once — a pure no-op, refuting the claim that a second `close()`
may fail. -/
theorem claim_C8_counterexample : c8sess.close.close = c8sess.close := by decide

/-- Claim C9: when `open` fails (`TruncatedHeader` or `BadMagic`), the
already-acquired byte source is not released: the handle carried by the
error still has `closed = false`. -/
theorem claim_C9_open_error_leaves_file_open (data : List Nat) (e : ParseError)
    (hnd : Handle) (h : bif6_open data = .err e hnd) : hnd.closed = false := by
  simp only [bif6_open, Handle.read, List.drop_zero] at h
  split_ifs at h
  all_goals injection h with he hh
  all_goals exact hh ▸ rfl

/-- Claim C9 witness: opening an empty file fails with `TruncatedHeader`
and leaves the handle open. -/
theorem claim_C9_witness :
    bif6_open [] = .err .truncatedHeader ⟨[], 0, false⟩ ∧
    (⟨[], 0, false⟩ : Handle).closed = false :=
  ⟨by decide,
   claim_C9_open_error_leaves_file_open [] .truncatedHeader ⟨[], 0, false⟩ (by decide)⟩

/-- Claim C10 (amended: a 12-byte header, not 11): `open` validates
nothing beyond length and magic — any long-enough file with correct magic
is accepted, including `width = 0` or `height = 0`, in which case each
`next()` reads a bare 16-byte record and returns an interval whose image
has `width` columns and zero pixels in total, and the sequence still
terminates normally at end of stream. -/
theorem claim_C10_no_header_value_validation :
    (∀ data : List Nat, 12 ≤ data.length → data.take 6 = bif6Magic →
        (bif6_open data).isOk = true) ∧
    (∀ s : BIF6FileParser, s.file.closed = false →
        s.n_x_pixels * s.n_y_pixels = 0 →
        mzBinHeaderSize ≤ s.file.data.length - s.file.pos →
        bif6_next s = .ok
          (decodeInterval s.n_x_pixels s.n_y_pixels
            ((s.file.data.drop s.file.pos).take mzBinHeaderSize))
          ⟨⟨s.file.data, s.file.pos + mzBinHeaderSize, false⟩,
            s.n_intervals, s.n_x_pixels, s.n_y_pixels⟩ ∧
        (decodeInterval s.n_x_pixels s.n_y_pixels
            ((s.file.data.drop s.file.pos).take mzBinHeaderSize)).image.length
          = s.n_x_pixels ∧
        (decodeInterval s.n_x_pixels s.n_y_pixels
            ((s.file.data.drop s.file.pos).take mzBinHeaderSize)).image.flatten
          = []) ∧
    (∀ s : BIF6FileParser, s.file.closed = false →
        s.file.data.length ≤ s.file.pos → bif6_next s = .stop s.close) := by
  refine ⟨fun data h1 h2 => (bif6_open_ok_iff data).mpr ⟨h1, h2⟩,
    fun s ho hz hl => ?_, next_eof_stop⟩
  exact ⟨next_zero_pixels s ho hz hl, (decodeInterval_image_shape _ _ _).1,
    decodeInterval_image_flatten_nil _ _ hz _⟩

/-- Claim C10 counterexample: an 11-byte "header" with correct magic is
rejected (`open` needs 12 bytes), so the claim's "every 11-byte header
with correct magic is accepted" is false as stated. -/
theorem claim_C10_counterexample :
    (bif6Magic ++ [0, 0, 0, 0, 0]).length = 11 ∧
    (bif6Magic ++ [0, 0, 0, 0, 0]).take 6 = bif6Magic ∧
    (bif6_open (bif6Magic ++ [0, 0, 0, 0, 0])).isOk = false := by decide

/-- Claim C10 witness: a concrete `width = 0, height = 5` file is
accepted, its record decodes to a pixel-free image, and the stream then
ends cleanly. -/
theorem claim_C10_witness :
    (bif6_open c10file).isOk = true ∧
    bif6_next c10sess = .ok (decodeInterval 0 5 ((c10file.drop 12).take 16))
      c10sessEnd ∧
    (decodeInterval 0 5 ((c10file.drop 12).take 16)).image.flatten = [] ∧
    bif6_next c10sessEnd = .stop c10sessEnd.close :=
  ⟨claim_C10_no_header_value_validation.1 c10file (by decide) (by decide),
   (claim_C10_no_header_value_validation.2.1 c10sess rfl rfl (by decide)).1,
   (claim_C10_no_header_value_validation.2.1 c10sess rfl rfl (by decide)).2.2,
   claim_C10_no_header_value_validation.2.2 c10sessEnd rfl (by decide)⟩
